import Mathlib

/-!
Verification of the grid aggregation core of `grid_visualizer.py`
(`GridBasedVisualizer.create_grid_based_value_map`).

The embedding works over exact rationals. A record geometry is modelled as a
finite union of axis-aligned rectangles (a rectilinear multipolygon); its
bounding box is the hull of the parts, matching the bounding boxes stored in
the spatial index. All coordinates are in the projected (planar) CRS, which
is where the source computes bounds, the grid and the per-cell statistics.
-/

namespace GridVisualizer

/-- An axis-aligned rectangle `(xmin, ymin, xmax, ymax)`, as produced by
`shapely.geometry.box(x_left, y_bottom, x_right, y_top)`. -/
structure Rect where
  xmin : ℚ
  ymin : ℚ
  xmax : ℚ
  ymax : ℚ
deriving Repr, DecidableEq

/-- Closed-rectangle overlap test: the semantics of `shapely.intersects` on two
axis-aligned boxes (touching boundaries count as intersecting). -/
def Rect.intersects (a b : Rect) : Bool :=
  decide (a.xmin ≤ b.xmax) && decide (b.xmin ≤ a.xmax) &&
  decide (a.ymin ≤ b.ymax) && decide (b.ymin ≤ a.ymax)

/-- Hull of two rectangles (componentwise min/max), used to fold bounding
boxes the way `total_bounds` and `geometry.bounds` do. -/
def Rect.hull (a b : Rect) : Rect :=
  ⟨min a.xmin b.xmin, min a.ymin b.ymin, max a.xmax b.xmax, max a.ymax b.ymax⟩

/-- Rectangle `a` contains rectangle `b` componentwise. -/
def Rect.contains (a b : Rect) : Prop :=
  a.xmin ≤ b.xmin ∧ a.ymin ≤ b.ymin ∧ b.xmax ≤ a.xmax ∧ b.ymax ≤ a.ymax

/-- A rectangle is well formed when its min corner is below its max corner. -/
def Rect.WF (r : Rect) : Prop := r.xmin ≤ r.xmax ∧ r.ymin ≤ r.ymax

/-- A record geometry: a polygon or multipolygon, modelled as a finite union
of axis-aligned rectangular parts. -/
structure Geometry where
  parts : List Rect
deriving Repr, DecidableEq

/-- The geometry's bounding box (`geometry.bounds` in shapely): the hull of
all parts. Junk value for an empty part list, which well-formed records
exclude. -/
def Geometry.bounds (g : Geometry) : Rect :=
  match g.parts with
  | [] => ⟨0, 0, 0, 0⟩
  | p :: ps => ps.foldl Rect.hull p

/-- Exact geometric intersection of a geometry with a rectangle
(`shapely.intersects`): some part overlaps the rectangle. -/
def Geometry.intersectsRect (g : Geometry) (c : Rect) : Bool :=
  g.parts.any (fun p => p.intersects c)

/-- One row of the GeoDataFrame: a geometry plus the value column, which may
be missing (`NaN`, modelled as `none`). -/
structure Record where
  geom : Geometry
  value : Option ℚ
deriving Repr, DecidableEq

/-- A record geometry is well formed when it has at least one part and every
part is a well-formed rectangle. -/
def Record.WF (r : Record) : Prop :=
  r.geom.parts ≠ [] ∧ ∀ p ∈ r.geom.parts, p.WF

/-- The numeric value of a record whose value is present
(`intersecting[value_column]`). -/
def Record.val (r : Record) : ℚ := r.value.getD 0

/-- The validity filter from the source:
`gdf[(gdf[value_column].notna()) & (gdf[value_column] > 0)]`. -/
def valid_data (gdf : List Record) : List Record :=
  gdf.filter fun r =>
    match r.value with
    | some v => decide (0 < v)
    | none => false

/-- `total_bounds` of a record collection: hull of all geometry bounding
boxes. Junk value for an empty collection. -/
def total_bounds (rs : List Record) : Rect :=
  match rs with
  | [] => ⟨0, 0, 0, 0⟩
  | r :: rest => rest.foldl (fun acc q => acc.hull q.geom.bounds) r.geom.bounds

/-- The padded bounding region: `padding = grid_size_meters * 0.1` subtracted
from the min corner and added to the max corner. -/
def padded_bounds (rs : List Record) (s : ℚ) : Rect :=
  let b := total_bounds rs
  let pad := s * (1 / 10)
  ⟨b.xmin - pad, b.ymin - pad, b.xmax + pad, b.ymax + pad⟩

/-- Number of grid columns: `x_cells = int(np.ceil((xmax - xmin) / grid_size_meters))`
over the padded bounds. -/
def x_cells (rs : List Record) (s : ℚ) : ℕ :=
  let b := padded_bounds rs s
  (⌈(b.xmax - b.xmin) / s⌉).toNat

/-- Number of grid rows: `y_cells = int(np.ceil((ymax - ymin) / grid_size_meters))`
over the padded bounds. -/
def y_cells (rs : List Record) (s : ℚ) : ℕ :=
  let b := padded_bounds rs s
  (⌈(b.ymax - b.ymin) / s⌉).toNat

/-- The grid square at column `i`, row `j`:
`box(xmin + i*s, ymin + j*s, xmin + (i+1)*s, ymin + (j+1)*s)` built from the
padded min corner `b`. -/
def grid_square (b : Rect) (s : ℚ) (i j : ℕ) : Rect :=
  ⟨b.xmin + i * s, b.ymin + j * s, b.xmin + (i + 1) * s, b.ymin + (j + 1) * s⟩

/-- The spatial-index candidate query for a cell:
`spatial_index.intersection(grid_square.bounds)` returns the records whose
precomputed geometry bounding box overlaps the query rectangle. -/
def index_candidates (data : List Record) (cell : Rect) : List Record :=
  data.filter fun r => (r.geom.bounds).intersects cell

/-- The aggregated record set of a cell: spatial-index candidates refined by
the exact test `possible_matches.intersects(grid_square)`. -/
def cell_records (data : List Record) (cell : Rect) : List Record :=
  (index_candidates data cell).filter fun r => r.geom.intersectsRect cell

/-- The brute-force oracle: every input record tested directly with the exact
intersection predicate against the cell rectangle. -/
def brute_force_records (data : List Record) (cell : Rect) : List Record :=
  data.filter fun r => r.geom.intersectsRect cell

/-- Median of a numeric multiset, as `pandas.Series.median` computes it:
sort, take the middle element for odd length, the average of the two middle
elements for even length. Junk value `0` for the empty list. -/
def median (vs : List ℚ) : ℚ :=
  let sorted := vs.insertionSort (· ≤ ·)
  let n := sorted.length
  if n % 2 = 1 then sorted.getD (n / 2) 0
  else (sorted.getD (n / 2 - 1) 0 + sorted.getD (n / 2) 0) / 2

/-- Linear-interpolation quantile, as `pandas.Series.quantile` computes it:
with sorted values `v_0 ≤ … ≤ v_{n-1}` and `h = p*(n-1)`, the result is
`v_k + (h - k) * (v_{k+1} - v_k)` where `k = ⌊h⌋`. -/
def quantile (vs : List ℚ) (p : ℚ) : ℚ :=
  let sorted := vs.insertionSort (· ≤ ·)
  let n := sorted.length
  let h := p * ((n : ℚ) - 1)
  let k := (⌊h⌋).toNat
  let a := sorted.getD k 0
  let b := sorted.getD (k + 1) a
  a + (h - (k : ℚ)) * (b - a)

/-- The nine global decile thresholds
`all_values.quantile([0.1, 0.2, ..., 0.9])`. -/
structure Deciles where
  d10 : ℚ
  d20 : ℚ
  d30 : ℚ
  d40 : ℚ
  d50 : ℚ
  d60 : ℚ
  d70 : ℚ
  d80 : ℚ
  d90 : ℚ
deriving Repr, DecidableEq

/-- Global deciles of the valid values, computed once before the grid loop. -/
def global_deciles (rs : List Record) : Deciles :=
  let vals := rs.map Record.val
  ⟨quantile vals (1/10), quantile vals (2/10), quantile vals (3/10),
   quantile vals (4/10), quantile vals (5/10), quantile vals (6/10),
   quantile vals (7/10), quantile vals (8/10), quantile vals (9/10)⟩

/-- The decile chain from the rendering loop: successive `median_val <= dK`
tests assigning buckets `1..10` (`D1` through `D10`). -/
def decile_bucket (d : Deciles) (v : ℚ) : ℕ :=
  if v ≤ d.d10 then 1
  else if v ≤ d.d20 then 2
  else if v ≤ d.d30 then 3
  else if v ≤ d.d40 then 4
  else if v ≤ d.d50 then 5
  else if v ≤ d.d60 then 6
  else if v ≤ d.d70 then 7
  else if v ≤ d.d80 then 8
  else if v ≤ d.d90 then 9
  else 10

/-- The ascending threshold sequence of the decile chain. -/
def threshold_list (d : Deciles) : List ℚ :=
  [d.d10, d.d20, d.d30, d.d40, d.d50, d.d60, d.d70, d.d80, d.d90]

/-- Spec-worded classifier, for refinement comparison with `decile_bucket`:
compare `v` with `≤` against the ascending thresholds, first match wins,
bucket 10 when no threshold bounds `v`. -/
def first_match_bucket (d : Deciles) (v : ℚ) : ℕ :=
  (threshold_list d).findIdx (fun t => decide (v ≤ t)) + 1

/-- One entry of `grid_squares_with_data`: the cell indices `Grid_i_j`, the
cell rectangle, the median value and the property count. -/
structure CellStatistic where
  i : ℕ
  j : ℕ
  cell : Rect
  median_value : ℚ
  property_count : ℕ
deriving Repr, DecidableEq

/-- The body of the grid loop for one cell: `none` when the intersecting set
is empty (the cell is skipped), otherwise the cell's statistic. -/
def mk_cell_stat (data : List Record) (b : Rect) (s : ℚ) (i j : ℕ) :
    Option CellStatistic :=
  let cell := grid_square b s i j
  let intersecting := cell_records data cell
  if intersecting.isEmpty then none
  else some ⟨i, j, cell, median (intersecting.map Record.val),
             intersecting.length⟩

/-- The full grid loop `for i in range(x_cells): for j in range(y_cells)`,
collecting `grid_squares_with_data` in emission order. -/
def grid_stats (data : List Record) (s : ℚ) : List CellStatistic :=
  let b := padded_bounds data s
  (List.range (x_cells data s)).flatMap fun i =>
    (List.range (y_cells data s)).filterMap fun j => mk_cell_stat data b s i j

/-- The output of one aggregation pass: the global decile thresholds and the
sequence of non-empty cell statistics. -/
structure GridOutput where
  deciles : Deciles
  stats : List CellStatistic
deriving Repr, DecidableEq

/-- The aggregation entry point `create_grid_based_value_map`: raises
(`Except.error`) on an empty GeoDataFrame or when no record passes the
validity filter, otherwise runs the whole pass on the valid records. -/
def create_grid_based_value_map (gdf : List Record) (s : ℚ) :
    Except String GridOutput :=
  if gdf.isEmpty then
    .error "Cannot create grid map from empty GeoDataFrame"
  else
    let valid := valid_data gdf
    if valid.isEmpty then
      .error "No valid data for grid map in column"
    else
      .ok ⟨global_deciles valid, grid_stats valid s⟩

/-- The `(i, j)` index sequence of an emitted statistic list. -/
def stat_indices (stats : List CellStatistic) : List (ℕ × ℕ) :=
  stats.map fun st => (st.i, st.j)

/-- Spec-worded row-major ordering check on an index sequence: each entry
precedes the next in (row, then column) lexicographic order, rows being the
second (`j`) component. -/
def row_major_ordered : List (ℕ × ℕ) → Bool
  | [] => true
  | [_] => true
  | a :: b :: rest =>
    (decide (a.2 < b.2) || (decide (a.2 = b.2) && decide (a.1 < b.1))) &&
      row_major_ordered (b :: rest)

/-- Column-major precedence on emitted statistics: earlier column, or the
same column and an earlier row. -/
def col_major_before (st st' : CellStatistic) : Prop :=
  st.i < st'.i ∨ (st.i = st'.i ∧ st.j < st'.j)

/-- A point of the plane lying in a closed rectangle. -/
def Rect.memC (x y : ℚ) (r : Rect) : Prop :=
  r.xmin ≤ x ∧ x ≤ r.xmax ∧ r.ymin ≤ y ∧ y ≤ r.ymax

/-- A point of the plane lying in the interior of a rectangle. -/
def Rect.memO (x y : ℚ) (r : Rect) : Prop :=
  r.xmin < x ∧ x < r.xmax ∧ r.ymin < y ∧ y < r.ymax

/-! Basic facts about rectangle hulls and bounding boxes. -/

lemma Rect.contains_rfl (a : Rect) : a.contains a :=
  ⟨le_rfl, le_rfl, le_rfl, le_rfl⟩

lemma Rect.contains_trans {a b c : Rect} (h1 : a.contains b) (h2 : b.contains c) :
    a.contains c :=
  ⟨h1.1.trans h2.1, h1.2.1.trans h2.2.1, h2.2.2.1.trans h1.2.2.1,
   h2.2.2.2.trans h1.2.2.2⟩

lemma Rect.hull_contains_left (a b : Rect) : (a.hull b).contains a :=
  ⟨min_le_left _ _, min_le_left _ _, le_max_left _ _, le_max_left _ _⟩

lemma Rect.hull_contains_right (a b : Rect) : (a.hull b).contains b :=
  ⟨min_le_right _ _, min_le_right _ _, le_max_right _ _, le_max_right _ _⟩

lemma foldl_hull_contains (ps : List Rect) (p : Rect) :
    (ps.foldl Rect.hull p).contains p ∧
    ∀ q ∈ ps, (ps.foldl Rect.hull p).contains q := by
  induction ps generalizing p with
  | nil => exact ⟨Rect.contains_rfl p, by simp⟩
  | cons hd tl ih =>
    simp only [List.foldl_cons]
    obtain ⟨h1, h2⟩ := ih (p.hull hd)
    refine ⟨Rect.contains_trans h1 (Rect.hull_contains_left p hd), ?_⟩
    intro q hq
    rcases List.mem_cons.mp hq with h | h
    · subst h
      exact Rect.contains_trans h1 (Rect.hull_contains_right _ _)
    · exact h2 q h

lemma Geometry.bounds_contains {g : Geometry} {p : Rect} (hp : p ∈ g.parts) :
    g.bounds.contains p := by
  unfold Geometry.bounds
  rcases hparts : g.parts with _ | ⟨hd, tl⟩
  · simp [hparts] at hp
  · rw [hparts] at hp
    rcases List.mem_cons.mp hp with h | h
    · exact h ▸ (foldl_hull_contains tl hd).1
    · exact (foldl_hull_contains tl hd).2 p h

lemma Rect.intersects_of_contains {a p c : Rect} (h : a.contains p)
    (hi : p.intersects c = true) : a.intersects c = true := by
  simp only [Rect.intersects, Bool.and_eq_true, decide_eq_true_eq] at hi ⊢
  obtain ⟨⟨⟨i1, i2⟩, i3⟩, i4⟩ := hi
  obtain ⟨c1, c2, c3, c4⟩ := h
  exact ⟨⟨⟨c1.trans i1, i2.trans c3⟩, c2.trans i3⟩, i4.trans c4⟩

lemma Geometry.bounds_intersects_of_exact {g : Geometry} {c : Rect}
    (h : g.intersectsRect c = true) : g.bounds.intersects c = true := by
  simp only [Geometry.intersectsRect, List.any_eq_true] at h
  obtain ⟨p, hp, hpc⟩ := h
  exact Rect.intersects_of_contains (Geometry.bounds_contains hp) hpc

lemma cell_records_eq (data : List Record) (cell : Rect) :
    cell_records data cell = brute_force_records data cell := by
  unfold cell_records index_candidates brute_force_records
  rw [List.filter_filter]
  apply List.filter_congr
  intro r _
  cases hx : r.geom.intersectsRect cell with
  | false => simp [hx]
  | true => simp [hx, Geometry.bounds_intersects_of_exact hx]

/-- C2: for every cell rectangle, the record set obtained through the
spatial-index candidate query followed by the exact intersection filter is
exactly the record set obtained by brute-force exact intersection of every
input record; in particular the two counts agree, so the spatial index never
changes which records are aggregated. -/
theorem cell_records_eq_brute_force (data : List Record) (cell : Rect) :
    cell_records data cell = brute_force_records data cell ∧
    (cell_records data cell).length = (brute_force_records data cell).length :=
  ⟨cell_records_eq data cell, by rw [cell_records_eq data cell]⟩

/-- Inversion of membership in the emitted statistic list: every emitted
statistic comes from an in-range cell whose intersecting set is non-empty,
and carries that cell's rectangle, median and count. -/
lemma mem_grid_stats {data : List Record} {s : ℚ} {st : CellStatistic}
    (h : st ∈ grid_stats data s) :
    st.i < x_cells data s ∧ st.j < y_cells data s ∧
    st.cell = grid_square (padded_bounds data s) s st.i st.j ∧
    cell_records data st.cell ≠ [] ∧
    st.median_value = median ((cell_records data st.cell).map Record.val) ∧
    st.property_count = (cell_records data st.cell).length := by
  simp only [grid_stats, List.mem_flatMap, List.mem_filterMap, List.mem_range] at h
  obtain ⟨i, hi, j, hj, hmk⟩ := h
  unfold mk_cell_stat at hmk
  by_cases hempty :
      (cell_records data (grid_square (padded_bounds data s) s i j)).isEmpty = true
  · simp [hempty] at hmk
  · simp only [hempty, Bool.false_eq_true, if_false, Option.some.injEq] at hmk
    subst hmk
    refine ⟨hi, hj, rfl, ?_, rfl, rfl⟩
    simpa [List.isEmpty_iff] using hempty

/-- C1: a grid cell whose intersecting record set is empty is omitted from
the emitted statistic sequence entirely: no CellStatistic carrying that
cell's indices appears (no zero-valued or null placeholder). -/
theorem empty_cell_emits_no_stat (data : List Record) (s : ℚ) (i j : ℕ)
    (hempty : cell_records data (grid_square (padded_bounds data s) s i j) = []) :
    ∀ st ∈ grid_stats data s, ¬(st.i = i ∧ st.j = j) := by
  intro st hst ⟨hi, hj⟩
  obtain ⟨_, _, hcell, hne, _, _⟩ := mem_grid_stats hst
  rw [hcell, hi, hj] at hne
  exact hne hempty

/-! Median facts: the median of a non-empty multiset lies between its
minimum and maximum. -/

instance : Std.Antisymm (fun (a b : ℚ) => a ≤ b) :=
  ⟨@fun _ _ h1 h2 => le_antisymm h1 h2⟩

lemma min?_le_of_mem {l : List ℚ} {m v : ℚ} (h : l.min? = some m) (hv : v ∈ l) :
    m ≤ v := by
  rw [List.min?_eq_some_iff (fun a => le_refl a) (fun a b => min_choice a b)
    (fun a b c => le_min_iff)] at h
  exact h.2 v hv

lemma le_max?_of_mem {l : List ℚ} {m v : ℚ} (h : l.max? = some m) (hv : v ∈ l) :
    v ≤ m := by
  rw [List.max?_eq_some_iff (fun a => le_refl a) (fun a b => max_choice a b)
    (fun a b c => max_le_iff)] at h
  exact h.2 v hv

lemma getD_mem {l : List ℚ} {k : ℕ} (hk : k < l.length) (d : ℚ) :
    l.getD k d ∈ l := by
  rw [List.getD_eq_getElem l d hk]
  exact List.getElem_mem hk

lemma median_eq (vs : List ℚ) :
    median vs =
      if (vs.insertionSort (· ≤ ·)).length % 2 = 1
      then (vs.insertionSort (· ≤ ·)).getD ((vs.insertionSort (· ≤ ·)).length / 2) 0
      else ((vs.insertionSort (· ≤ ·)).getD ((vs.insertionSort (· ≤ ·)).length / 2 - 1) 0 +
            (vs.insertionSort (· ≤ ·)).getD ((vs.insertionSort (· ≤ ·)).length / 2) 0) / 2 :=
  rfl

lemma median_between {vs : List ℚ} (hne : vs ≠ []) {lo hi : ℚ}
    (hlo : ∀ v ∈ vs, lo ≤ v) (hhi : ∀ v ∈ vs, v ≤ hi) :
    lo ≤ median vs ∧ median vs ≤ hi := by
  rw [median_eq]
  have hperm : (vs.insertionSort (· ≤ ·)).Perm vs := List.perm_insertionSort _ vs
  have hpos : 0 < (vs.insertionSort (· ≤ ·)).length := by
    rw [hperm.length_eq]
    exact List.length_pos.mpr hne
  have hmem : ∀ k, k < (vs.insertionSort (· ≤ ·)).length →
      lo ≤ (vs.insertionSort (· ≤ ·)).getD k 0 ∧
      (vs.insertionSort (· ≤ ·)).getD k 0 ≤ hi := by
    intro k hk
    have hm : (vs.insertionSort (· ≤ ·)).getD k 0 ∈ vs :=
      hperm.mem_iff.mp (getD_mem hk 0)
    exact ⟨hlo _ hm, hhi _ hm⟩
  have hk2 : (vs.insertionSort (· ≤ ·)).length / 2 <
      (vs.insertionSort (· ≤ ·)).length := Nat.div_lt_self hpos (by norm_num)
  have hk1 : (vs.insertionSort (· ≤ ·)).length / 2 - 1 <
      (vs.insertionSort (· ≤ ·)).length := lt_of_le_of_lt (Nat.sub_le _ _) hk2
  by_cases hodd : (vs.insertionSort (· ≤ ·)).length % 2 = 1
  · rw [if_pos hodd]
    exact hmem _ hk2
  · rw [if_neg hodd]
    obtain ⟨a1, b1⟩ := hmem _ hk1
    obtain ⟨a2, b2⟩ := hmem _ hk2
    constructor <;> linarith

/-- C3: every emitted statistic's `median_value` is the standard median of the
multiset of intersecting values (middle element for odd cardinality, average
of the two middle elements for even cardinality, after sorting), and it lies
between the minimum and maximum of that multiset. -/
theorem emitted_median_correct (data : List Record) (s : ℚ) (st : CellStatistic)
    (h : st ∈ grid_stats data s) :
    st.median_value = median ((cell_records data st.cell).map Record.val) ∧
    (((cell_records data st.cell).map Record.val).min?.getD 0 ≤ st.median_value ∧
     st.median_value ≤ ((cell_records data st.cell).map Record.val).max?.getD 0) := by
  obtain ⟨_, _, _, hne, hmed, _⟩ := mem_grid_stats h
  have hvs : (cell_records data st.cell).map Record.val ≠ [] := by
    simpa using hne
  obtain ⟨lo, hlo⟩ : ∃ m, ((cell_records data st.cell).map Record.val).min? = some m := by
    cases hl : ((cell_records data st.cell).map Record.val).min? with
    | none => exact absurd (List.min?_eq_none_iff.mp hl) hvs
    | some m => exact ⟨m, rfl⟩
  obtain ⟨hi, hhi⟩ : ∃ m, ((cell_records data st.cell).map Record.val).max? = some m := by
    cases hl : ((cell_records data st.cell).map Record.val).max? with
    | none => exact absurd (List.max?_eq_none_iff.mp hl) hvs
    | some m => exact ⟨m, rfl⟩
  have hbetween :=
    median_between hvs (fun v hv => min?_le_of_mem hlo hv)
      (fun v hv => le_max?_of_mem hhi hv)
  rw [hlo, hhi, hmed]
  exact ⟨rfl, hbetween.1, hbetween.2⟩

/-- C8: a record whose geometry intersects several cell rectangles is
included, as a whole record (full value, no apportionment), in the
intersecting set of every cell it touches; in particular a record straddling
two adjacent cells belongs to both cells' intersecting sets. -/
theorem straddling_record_in_every_cell (data : List Record) (r : Record)
    (c₁ c₂ : Rect) (hr : r ∈ data)
    (h1 : r.geom.intersectsRect c₁ = true)
    (h2 : r.geom.intersectsRect c₂ = true) :
    r ∈ cell_records data c₁ ∧ r ∈ cell_records data c₂ := by
  rw [cell_records_eq data c₁, cell_records_eq data c₂]
  unfold brute_force_records
  exact ⟨List.mem_filter.mpr ⟨hr, h1⟩, List.mem_filter.mpr ⟨hr, h2⟩⟩

/-- C7: invoked with zero valid records — the GeoDataFrame is empty, or no
record has a present, strictly positive value — the entry point raises
immediately (empty-frame error or no-valid-data error) and emits no output
at all. -/
theorem empty_valid_data_raises (gdf : List Record) (s : ℚ)
    (h : valid_data gdf = []) :
    create_grid_based_value_map gdf s =
      .error (if gdf.isEmpty then "Cannot create grid map from empty GeoDataFrame"
              else "No valid data for grid map in column") := by
  by_cases hgdf : gdf.isEmpty
  · simp [create_grid_based_value_map, hgdf]
  · simp [create_grid_based_value_map, hgdf, h]

/-- C10: the entry point filters out records with missing or non-positive
values before anything else is computed; with at least one valid record
present, running on the mixed input is literally the same as running on the
pre-filtered input — bounds, decile thresholds and every emitted
CellStatistic agree. -/
theorem prefilter_invariance (gdf : List Record) (s : ℚ)
    (h : valid_data gdf ≠ []) :
    create_grid_based_value_map gdf s =
      create_grid_based_value_map (valid_data gdf) s := by
  have hidem : valid_data (valid_data gdf) = valid_data gdf := by
    unfold valid_data
    rw [List.filter_filter]
    apply List.filter_congr
    intro r _
    cases r.value <;> simp
  have hgdf : gdf ≠ [] := by
    intro hnil
    apply h
    rw [hnil]
    rfl
  simp [create_grid_based_value_map, List.isEmpty_iff, hidem, h, hgdf]

lemma bucket_eq_first_match (d : Deciles) (v : ℚ) :
    decile_bucket d v = first_match_bucket d v := by
  unfold decile_bucket first_match_bucket threshold_list
  split_ifs <;> simp_all [List.findIdx_cons, ← not_le]

lemma findIdx_mono {α : Type} {p q : α → Bool}
    (himp : ∀ a, q a = true → p a = true) (l : List α) :
    l.findIdx p ≤ l.findIdx q := by
  induction l with
  | nil => simp
  | cons a t ih =>
    rw [List.findIdx_cons, List.findIdx_cons]
    cases hp : p a with
    | true => simp
    | false =>
      have hq : q a = false := by
        cases hqa : q a
        · rfl
        · rw [himp a hqa] at hp
          exact absurd hp (by simp)
      simp only [hp, hq, cond_false]
      exact Nat.succ_le_succ ih

set_option maxHeartbeats 1600000 in
/-- C5: the decile chain assigns every value exactly one bucket in `1..10`,
equal to the first-match classification by `≤` against the ascending
thresholds; a value exactly equal to the `(k+1)`-th cut point is assigned a
bucket no later than `k+1`, i.e. it falls into the lower-numbered
(inclusive-upper) bucket at the boundary. -/
theorem decile_bucket_spec (d : Deciles) (v : ℚ) :
    (1 ≤ decile_bucket d v ∧ decile_bucket d v ≤ 10) ∧
    decile_bucket d v = first_match_bucket d v ∧
    ∀ k, k < 9 → v = (threshold_list d).getD k 0 → decile_bucket d v ≤ k + 1 := by
  refine ⟨?_, ?_, ?_⟩
  · unfold decile_bucket
    split_ifs <;> omega
  · exact bucket_eq_first_match d v
  · intro k hk hv
    interval_cases k <;>
      simp only [threshold_list, List.getD_cons_succ, List.getD_cons_zero] at hv <;>
      subst hv <;>
      (unfold decile_bucket; split_ifs <;>
        first
          | omega
          | exact absurd le_rfl (by assumption))

set_option maxHeartbeats 1600000 in
/-- C6: decile classification is monotonic: for any thresholds and any pair
of values `v1 < v2`, the bucket of `v1` is at most the bucket of `v2`. -/
theorem decile_bucket_monotone (d : Deciles) (v1 v2 : ℚ) (h : v1 < v2) :
    decile_bucket d v1 ≤ decile_bucket d v2 := by
  rw [bucket_eq_first_match d v1, bucket_eq_first_match d v2]
  unfold first_match_bucket
  have hmono := findIdx_mono (p := fun t => decide (v1 ≤ t))
    (q := fun t => decide (v2 ≤ t)) ?himp (threshold_list d)
  · exact Nat.add_le_add_right hmono 1
  · intro a hq
    simp only [decide_eq_true_eq] at hq ⊢
    linarith

/-! Emission order of the grid loop. -/

lemma mk_cell_stat_some {data : List Record} {b : Rect} {s : ℚ} {i j : ℕ}
    {st : CellStatistic} (h : mk_cell_stat data b s i j = some st) :
    st.i = i ∧ st.j = j := by
  unfold mk_cell_stat at h
  by_cases hempty :
      (cell_records data (grid_square b s i j)).isEmpty = true
  · simp [hempty] at h
  · simp only [hempty, Bool.false_eq_true, if_false, Option.some.injEq] at h
    subst h
    exact ⟨rfl, rfl⟩

lemma pairwise_flatMap_of {β : Type} (R : β → β → Prop) (f : ℕ → List β)
    (l : List ℕ) (hl : l.Pairwise (· < ·))
    (hin : ∀ i ∈ l, List.Pairwise R (f i))
    (hcross : ∀ i i', i < i' → ∀ x ∈ f i, ∀ y ∈ f i', R x y) :
    List.Pairwise R (l.flatMap f) := by
  induction l with
  | nil => simp
  | cons a t ih =>
    rw [List.flatMap_cons, List.pairwise_append]
    obtain ⟨ha, ht⟩ := List.pairwise_cons.mp hl
    refine ⟨hin a (List.mem_cons_self a t), ih ht (fun i hi => hin i (List.mem_cons_of_mem a hi)), ?_⟩
    intro x hx y hy
    obtain ⟨i, hi, hyi⟩ := List.mem_flatMap.mp hy
    exact hcross a i (ha i hi) x hx y hyi

/-- C9 (amended): the grid loop iterates columns in the outer loop and rows in
the inner loop, so the emitted CellStatistic sequence is in column-major
order: statistics are strictly increasing in (column index, then row index)
lexicographic order. -/
theorem grid_stats_col_major (data : List Record) (s : ℚ) :
    List.Pairwise col_major_before (grid_stats data s) := by
  unfold grid_stats
  apply pairwise_flatMap_of
  · exact List.pairwise_lt_range _
  · intro i _
    apply List.Pairwise.filterMap (fun j => mk_cell_stat data (padded_bounds data s) s i j)
      ?_ (List.pairwise_lt_range _)
    intro j j' hjj st hst st' hst'
    obtain ⟨hi, hj⟩ := mk_cell_stat_some (Option.mem_def.mp hst)
    obtain ⟨hi', hj'⟩ := mk_cell_stat_some (Option.mem_def.mp hst')
    right
    rw [hi, hi', hj, hj']
    exact ⟨rfl, hjj⟩
  · intro i i' hii x hx y hy
    obtain ⟨j, _, hxj⟩ := List.mem_filterMap.mp hx
    obtain ⟨j', _, hyj⟩ := List.mem_filterMap.mp hy
    obtain ⟨hxi, _⟩ := mk_cell_stat_some hxj
    obtain ⟨hyi, _⟩ := mk_cell_stat_some hyj
    left
    rw [hxi, hyi]
    exact hii

/-! Tiling facts for the grid of cells over the padded bounding region. -/

lemma Rect.WF.hull {a b : Rect} (ha : a.WF) (hb : b.WF) : (a.hull b).WF :=
  ⟨le_trans (min_le_left _ _) (le_trans ha.1 (le_max_left _ _)),
   le_trans (min_le_left _ _) (le_trans ha.2 (le_max_left _ _))⟩

lemma foldl_hull_wf (l : List Rect) (a : Rect)
    (ha : a.WF) (hl : ∀ x ∈ l, x.WF) :
    (l.foldl Rect.hull a).WF := by
  induction l generalizing a with
  | nil => exact ha
  | cons hd tl ih =>
    simp only [List.foldl_cons]
    exact ih (a.hull hd) (ha.hull (hl hd (List.mem_cons_self hd tl)))
      (fun x hx => hl x (List.mem_cons_of_mem hd hx))

lemma foldl_hull_bounds_wf (l : List Record) (a : Rect)
    (ha : a.WF) (hl : ∀ q ∈ l, q.geom.bounds.WF) :
    (l.foldl (fun acc q => acc.hull q.geom.bounds) a).WF := by
  induction l generalizing a with
  | nil => exact ha
  | cons hd tl ih =>
    simp only [List.foldl_cons]
    exact ih (a.hull hd.geom.bounds) (ha.hull (hl hd (List.mem_cons_self hd tl)))
      (fun x hx => hl x (List.mem_cons_of_mem hd hx))

lemma Geometry.bounds_wf {g : Geometry} (h1 : g.parts ≠ [])
    (h2 : ∀ p ∈ g.parts, p.WF) : g.bounds.WF := by
  unfold Geometry.bounds
  rcases hparts : g.parts with _ | ⟨hd, tl⟩
  · exact absurd hparts h1
  · rw [hparts] at h2
    exact foldl_hull_wf tl hd (h2 hd (List.mem_cons_self hd tl))
      (fun x hx => h2 x (List.mem_cons_of_mem hd hx))

lemma total_bounds_wf {data : List Record} (hne : data ≠ [])
    (hwf : ∀ r ∈ data, r.WF) : (total_bounds data).WF := by
  unfold total_bounds
  rcases hdata : data with _ | ⟨r, rest⟩
  · exact absurd hdata hne
  · rw [hdata] at hwf
    have hr : r.geom.bounds.WF :=
      Geometry.bounds_wf (hwf r (List.mem_cons_self r rest)).1
        (hwf r (List.mem_cons_self r rest)).2
    exact foldl_hull_bounds_wf rest r.geom.bounds hr
      (fun q hq => Geometry.bounds_wf (hwf q (List.mem_cons_of_mem r hq)).1
        (hwf q (List.mem_cons_of_mem r hq)).2)

lemma padded_sides_pos {data : List Record} {s : ℚ} (hs : 0 < s)
    (hwf : (total_bounds data).WF) :
    0 < (padded_bounds data s).xmax - (padded_bounds data s).xmin ∧
    0 < (padded_bounds data s).ymax - (padded_bounds data s).ymin := by
  obtain ⟨h1, h2⟩ := hwf
  simp only [padded_bounds]
  constructor <;> linarith

lemma ceil_cells_bound {w s : ℚ} (hs : 0 < s) (hw : 0 < w) :
    1 ≤ (⌈w / s⌉).toNat ∧ w ≤ ((⌈w / s⌉).toNat : ℚ) * s := by
  have hpos : 0 < ⌈w / s⌉ := Int.ceil_pos.mpr (div_pos hw hs)
  have hcast : ((⌈w / s⌉).toNat : ℚ) = ((⌈w / s⌉ : ℤ) : ℚ) := by
    exact_mod_cast congrArg (fun z : ℤ => (z : ℚ)) (Int.toNat_of_nonneg hpos.le)
  constructor
  · omega
  · have hle : w / s ≤ ((⌈w / s⌉ : ℤ) : ℚ) := Int.le_ceil _
    rw [div_le_iff hs] at hle
    rw [hcast]
    linarith

lemma cells_cover_1d {s a x : ℚ} {n : ℕ} (hs : 0 < s) (hn : 1 ≤ n)
    (h1 : a ≤ x) (h2 : x ≤ a + (n : ℚ) * s) :
    ∃ i : ℕ, i < n ∧ a + (i : ℚ) * s ≤ x ∧ x ≤ a + ((i : ℚ) + 1) * s := by
  have ht0 : 0 ≤ (x - a) / s := div_nonneg (by linarith) hs.le
  have htn : (x - a) / s ≤ (n : ℚ) := by
    rw [div_le_iff hs]
    linarith
  have hfl0 : (0 : ℤ) ≤ ⌊(x - a) / s⌋ := Int.floor_nonneg.mpr ht0
  have hcast : ((⌊(x - a) / s⌋.toNat : ℕ) : ℚ) = ((⌊(x - a) / s⌋ : ℤ) : ℚ) := by
    exact_mod_cast congrArg (fun z : ℤ => (z : ℚ)) (Int.toNat_of_nonneg hfl0)
  by_cases hcase : ⌊(x - a) / s⌋.toNat < n
  · refine ⟨⌊(x - a) / s⌋.toNat, hcase, ?_, ?_⟩
    · have hle : ((⌊(x - a) / s⌋ : ℤ) : ℚ) ≤ (x - a) / s := Int.floor_le _
      rw [← hcast, le_div_iff hs] at hle
      linarith
    · have hlt : (x - a) / s < ((⌊(x - a) / s⌋ : ℤ) : ℚ) + 1 := Int.lt_floor_add_one _
      rw [← hcast, div_lt_iff hs] at hlt
      linarith
  · have hge : (n : ℤ) ≤ ⌊(x - a) / s⌋ := by omega
    have hteq : (x - a) / s = (n : ℚ) := by
      have : ((n : ℤ) : ℚ) ≤ ((⌊(x - a) / s⌋ : ℤ) : ℚ) := by exact_mod_cast hge
      have hfle : ((⌊(x - a) / s⌋ : ℤ) : ℚ) ≤ (x - a) / s := Int.floor_le _
      push_cast at this
      linarith
    have hxeq : x = a + (n : ℚ) * s := by
      have : x - a = (n : ℚ) * s := by
        rw [div_eq_iff hs.ne.symm] at hteq
        exact hteq
      linarith
    refine ⟨n - 1, by omega, ?_, ?_⟩
    · have hc : ((n - 1 : ℕ) : ℚ) ≤ (n : ℚ) := by
        exact_mod_cast Nat.sub_le n 1
      nlinarith
    · have hc : (n : ℚ) ≤ ((n - 1 : ℕ) : ℚ) + 1 := by
        have : n ≤ (n - 1) + 1 := by omega
        exact_mod_cast this
      nlinarith

lemma cells_disjoint_1d {s a x : ℚ} {i i' : ℕ} (hs : 0 < s) (hii : i < i')
    (h2 : x < a + ((i : ℚ) + 1) * s) (h1' : a + (i' : ℚ) * s < x) : False := by
  have hc : ((i : ℚ) + 1) ≤ (i' : ℚ) := by
    exact_mod_cast Nat.succ_le_of_lt hii
  nlinarith

/-- C4 (amended): for a non-empty well-formed input and positive side length,
the grid over the padded bounding region has `cols = ceil(width / s)` and
`rows = ceil(height / s)` with at least one column and one row; every cell is
an `s`-by-`s` square; distinct cells have disjoint interiors; and the cells
jointly cover the whole padded region. (The union may extend past the padded
region when the side length does not divide the padded width or height — it
covers the padded region but does not equal it.) -/
theorem grid_tiling (data : List Record) (s : ℚ) (hs : 0 < s)
    (hne : data ≠ []) (hwf : ∀ r ∈ data, r.WF) :
    (x_cells data s =
       (⌈((padded_bounds data s).xmax - (padded_bounds data s).xmin) / s⌉).toNat ∧
     y_cells data s =
       (⌈((padded_bounds data s).ymax - (padded_bounds data s).ymin) / s⌉).toNat) ∧
    (1 ≤ x_cells data s ∧ 1 ≤ y_cells data s) ∧
    (∀ i j : ℕ,
       (grid_square (padded_bounds data s) s i j).xmax -
         (grid_square (padded_bounds data s) s i j).xmin = s ∧
       (grid_square (padded_bounds data s) s i j).ymax -
         (grid_square (padded_bounds data s) s i j).ymin = s) ∧
    (∀ i j i' j' : ℕ, (i, j) ≠ (i', j') → ∀ x y : ℚ,
       ¬(Rect.memO x y (grid_square (padded_bounds data s) s i j) ∧
         Rect.memO x y (grid_square (padded_bounds data s) s i' j'))) ∧
    (∀ x y : ℚ, Rect.memC x y (padded_bounds data s) →
       ∃ i, i < x_cells data s ∧ ∃ j, j < y_cells data s ∧
         Rect.memC x y (grid_square (padded_bounds data s) s i j)) := by
  have hbwf := total_bounds_wf hne hwf
  obtain ⟨hwx, hwy⟩ := padded_sides_pos hs hbwf
  obtain ⟨hcx, hbx⟩ := ceil_cells_bound hs hwx
  obtain ⟨hcy, hby⟩ := ceil_cells_bound hs hwy
  rw [show (⌈((padded_bounds data s).xmax - (padded_bounds data s).xmin) / s⌉).toNat
      = x_cells data s from rfl] at hcx hbx
  rw [show (⌈((padded_bounds data s).ymax - (padded_bounds data s).ymin) / s⌉).toNat
      = y_cells data s from rfl] at hcy hby
  refine ⟨⟨rfl, rfl⟩, ⟨hcx, hcy⟩, ?_, ?_, ?_⟩
  · intro i j
    simp only [grid_square]
    constructor <;> ring
  · intro i j i' j' hne' x y ⟨hm, hm'⟩
    obtain ⟨hx1, hx2, hy1, hy2⟩ := hm
    obtain ⟨hx1', hx2', hy1', hy2'⟩ := hm'
    simp only [grid_square] at hx1 hx2 hy1 hy2 hx1' hx2' hy1' hy2'
    have hor : i ≠ i' ∨ j ≠ j' := by
      by_contra hcon
      push_neg at hcon
      exact hne' (by rw [hcon.1, hcon.2])
    rcases hor with hii | hjj
    · rcases Nat.lt_or_ge i i' with hlt | hge
      · exact cells_disjoint_1d (a := (padded_bounds data s).xmin) (x := x)
          hs hlt (by push_cast at hx2 ⊢; linarith) (by push_cast at hx1' ⊢; linarith)
      · have hlt : i' < i := lt_of_le_of_ne hge (fun h => hii h.symm)
        exact cells_disjoint_1d (a := (padded_bounds data s).xmin) (x := x)
          hs hlt (by push_cast at hx2' ⊢; linarith) (by push_cast at hx1 ⊢; linarith)
    · rcases Nat.lt_or_ge j j' with hlt | hge
      · exact cells_disjoint_1d (a := (padded_bounds data s).ymin) (x := y)
          hs hlt (by push_cast at hy2 ⊢; linarith) (by push_cast at hy1' ⊢; linarith)
      · have hlt : j' < j := lt_of_le_of_ne hge (fun h => hjj h.symm)
        exact cells_disjoint_1d (a := (padded_bounds data s).ymin) (x := y)
          hs hlt (by push_cast at hy2' ⊢; linarith) (by push_cast at hy1 ⊢; linarith)
  · intro x y ⟨hx1, hx2, hy1, hy2⟩
    obtain ⟨i, hi, hix1, hix2⟩ :=
      cells_cover_1d (a := (padded_bounds data s).xmin) hs hcx hx1 (by linarith)
    obtain ⟨j, hj, hjy1, hjy2⟩ :=
      cells_cover_1d (a := (padded_bounds data s).ymin) hs hcy hy1 (by linarith)
    refine ⟨i, hi, j, hj, ?_, ?_, ?_, ?_⟩ <;>
      simp only [grid_square] <;> push_cast <;> linarith

/-! Concrete instantiations: evaluation helpers, counterexamples and
witnesses on small explicit inputs. -/

lemma ceil_toNat_eq {q : ℚ} {n : ℕ} (h1 : (n : ℚ) - 1 < q) (h2 : q ≤ (n : ℚ)) :
    (⌈q⌉).toNat = n := by
  have h : (⌈q⌉ : ℤ) = (n : ℤ) := by
    rw [Int.ceil_eq_iff]
    refine ⟨by push_cast; exact h1, by push_cast; exact h2⟩
  rw [h]
  exact Int.toNat_natCast n

lemma x_cells_one_point : x_cells [⟨⟨[⟨0, 0, 0, 0⟩]⟩, some 100⟩] 1 = 1 := by
  rw [x_cells]
  norm_num [padded_bounds, total_bounds, Geometry.bounds]
  apply ceil_toNat_eq <;> norm_num

lemma y_cells_one_point : y_cells [⟨⟨[⟨0, 0, 0, 0⟩]⟩, some 100⟩] 1 = 1 := by
  rw [y_cells]
  norm_num [padded_bounds, total_bounds, Geometry.bounds]
  apply ceil_toNat_eq <;> norm_num

theorem empty_cell_emits_no_stat_witness :
    cell_records [⟨⟨[⟨0, 0, 0, 0⟩]⟩, some 100⟩]
      (grid_square (padded_bounds [⟨⟨[⟨0, 0, 0, 0⟩]⟩, some 100⟩] 1) 1 1 0) = [] ∧
    ∀ st ∈ grid_stats [⟨⟨[⟨0, 0, 0, 0⟩]⟩, some 100⟩] 1, ¬(st.i = 1 ∧ st.j = 0) := by
  have hemp : cell_records [⟨⟨[⟨0, 0, 0, 0⟩]⟩, some 100⟩]
      (grid_square (padded_bounds [⟨⟨[⟨0, 0, 0, 0⟩]⟩, some 100⟩] 1) 1 1 0) = [] := by
    norm_num [cell_records, index_candidates, grid_square, padded_bounds,
      total_bounds, Geometry.bounds, Rect.intersects, Geometry.intersectsRect]
  exact ⟨hemp, empty_cell_emits_no_stat _ 1 1 0 hemp⟩

set_option maxHeartbeats 4000000 in
lemma grid_stats_four_points :
    grid_stats [⟨⟨[⟨0, 0, 0, 0⟩]⟩, some 100⟩, ⟨⟨[⟨0, 0, 0, 0⟩]⟩, some 200⟩,
        ⟨⟨[⟨0, 0, 0, 0⟩]⟩, some 300⟩, ⟨⟨[⟨0, 0, 0, 0⟩]⟩, some 400⟩] 1 =
      [⟨0, 0, ⟨-1/10, -1/10, 9/10, 9/10⟩, 250, 4⟩] := by
  have hx : x_cells [⟨⟨[⟨0, 0, 0, 0⟩]⟩, some 100⟩, ⟨⟨[⟨0, 0, 0, 0⟩]⟩, some 200⟩,
      ⟨⟨[⟨0, 0, 0, 0⟩]⟩, some 300⟩, ⟨⟨[⟨0, 0, 0, 0⟩]⟩, some 400⟩] 1 = 1 := by
    rw [x_cells]
    norm_num [padded_bounds, total_bounds, Geometry.bounds, Rect.hull]
    apply ceil_toNat_eq <;> norm_num
  have hy : y_cells [⟨⟨[⟨0, 0, 0, 0⟩]⟩, some 100⟩, ⟨⟨[⟨0, 0, 0, 0⟩]⟩, some 200⟩,
      ⟨⟨[⟨0, 0, 0, 0⟩]⟩, some 300⟩, ⟨⟨[⟨0, 0, 0, 0⟩]⟩, some 400⟩] 1 = 1 := by
    rw [y_cells]
    norm_num [padded_bounds, total_bounds, Geometry.bounds, Rect.hull]
    apply ceil_toNat_eq <;> norm_num
  rw [grid_stats, hx, hy]
  norm_num [mk_cell_stat, cell_records, index_candidates, total_bounds,
    padded_bounds, grid_square, Rect.intersects, Rect.hull, Geometry.bounds,
    Geometry.intersectsRect, Record.val, Option.getD, median,
    List.insertionSort, List.orderedInsert, List.range_succ,
    List.flatMap_cons, List.flatMap_nil, List.filterMap_cons]

theorem emitted_median_correct_witness :
    (⟨0, 0, ⟨-1/10, -1/10, 9/10, 9/10⟩, 250, 4⟩ : CellStatistic).median_value =
      median ((cell_records [⟨⟨[⟨0, 0, 0, 0⟩]⟩, some 100⟩, ⟨⟨[⟨0, 0, 0, 0⟩]⟩, some 200⟩,
          ⟨⟨[⟨0, 0, 0, 0⟩]⟩, some 300⟩, ⟨⟨[⟨0, 0, 0, 0⟩]⟩, some 400⟩]
        (⟨0, 0, ⟨-1/10, -1/10, 9/10, 9/10⟩, 250, 4⟩ : CellStatistic).cell).map Record.val) ∧
    (((cell_records [⟨⟨[⟨0, 0, 0, 0⟩]⟩, some 100⟩, ⟨⟨[⟨0, 0, 0, 0⟩]⟩, some 200⟩,
          ⟨⟨[⟨0, 0, 0, 0⟩]⟩, some 300⟩, ⟨⟨[⟨0, 0, 0, 0⟩]⟩, some 400⟩]
        (⟨0, 0, ⟨-1/10, -1/10, 9/10, 9/10⟩, 250, 4⟩ : CellStatistic).cell).map
          Record.val).min?.getD 0 ≤
        (⟨0, 0, ⟨-1/10, -1/10, 9/10, 9/10⟩, 250, 4⟩ : CellStatistic).median_value ∧
     (⟨0, 0, ⟨-1/10, -1/10, 9/10, 9/10⟩, 250, 4⟩ : CellStatistic).median_value ≤
       ((cell_records [⟨⟨[⟨0, 0, 0, 0⟩]⟩, some 100⟩, ⟨⟨[⟨0, 0, 0, 0⟩]⟩, some 200⟩,
          ⟨⟨[⟨0, 0, 0, 0⟩]⟩, some 300⟩, ⟨⟨[⟨0, 0, 0, 0⟩]⟩, some 400⟩]
        (⟨0, 0, ⟨-1/10, -1/10, 9/10, 9/10⟩, 250, 4⟩ : CellStatistic).cell).map
          Record.val).max?.getD 0) := by
  apply emitted_median_correct
  rw [grid_stats_four_points]
  exact List.mem_singleton.mpr rfl

theorem grid_tiling_witness :
    (x_cells [⟨⟨[⟨0, 0, 0, 0⟩]⟩, some 100⟩] 1 =
       (⌈((padded_bounds [⟨⟨[⟨0, 0, 0, 0⟩]⟩, some 100⟩] 1).xmax -
           (padded_bounds [⟨⟨[⟨0, 0, 0, 0⟩]⟩, some 100⟩] 1).xmin) / 1⌉).toNat ∧
     y_cells [⟨⟨[⟨0, 0, 0, 0⟩]⟩, some 100⟩] 1 =
       (⌈((padded_bounds [⟨⟨[⟨0, 0, 0, 0⟩]⟩, some 100⟩] 1).ymax -
           (padded_bounds [⟨⟨[⟨0, 0, 0, 0⟩]⟩, some 100⟩] 1).ymin) / 1⌉).toNat) ∧
    (1 ≤ x_cells [⟨⟨[⟨0, 0, 0, 0⟩]⟩, some 100⟩] 1 ∧
     1 ≤ y_cells [⟨⟨[⟨0, 0, 0, 0⟩]⟩, some 100⟩] 1) ∧
    (∀ i j : ℕ,
       (grid_square (padded_bounds [⟨⟨[⟨0, 0, 0, 0⟩]⟩, some 100⟩] 1) 1 i j).xmax -
         (grid_square (padded_bounds [⟨⟨[⟨0, 0, 0, 0⟩]⟩, some 100⟩] 1) 1 i j).xmin = 1 ∧
       (grid_square (padded_bounds [⟨⟨[⟨0, 0, 0, 0⟩]⟩, some 100⟩] 1) 1 i j).ymax -
         (grid_square (padded_bounds [⟨⟨[⟨0, 0, 0, 0⟩]⟩, some 100⟩] 1) 1 i j).ymin = 1) ∧
    (∀ i j i' j' : ℕ, (i, j) ≠ (i', j') → ∀ x y : ℚ,
       ¬(Rect.memO x y (grid_square (padded_bounds [⟨⟨[⟨0, 0, 0, 0⟩]⟩, some 100⟩] 1) 1 i j) ∧
         Rect.memO x y (grid_square (padded_bounds [⟨⟨[⟨0, 0, 0, 0⟩]⟩, some 100⟩] 1) 1 i' j'))) ∧
    (∀ x y : ℚ, Rect.memC x y (padded_bounds [⟨⟨[⟨0, 0, 0, 0⟩]⟩, some 100⟩] 1) →
       ∃ i, i < x_cells [⟨⟨[⟨0, 0, 0, 0⟩]⟩, some 100⟩] 1 ∧
         ∃ j, j < y_cells [⟨⟨[⟨0, 0, 0, 0⟩]⟩, some 100⟩] 1 ∧
           Rect.memC x y (grid_square (padded_bounds [⟨⟨[⟨0, 0, 0, 0⟩]⟩, some 100⟩] 1) 1 i j)) :=
  grid_tiling [⟨⟨[⟨0, 0, 0, 0⟩]⟩, some 100⟩] 1 (by norm_num) (by simp)
    (by
      intro r hr
      rw [List.mem_singleton.mp hr]
      exact ⟨by simp, by intro p hp; rw [List.mem_singleton.mp hp]; exact ⟨le_rfl, le_rfl⟩⟩)

/-- C4 counterexample: for the single point record at the origin with side
length 1, the grid is a single cell whose rectangle contains the point
(1/2, 1/2), yet that point lies outside the padded bounding region — the
union of the cells strictly exceeds the padded region, so it does not cover
it exactly. -/
theorem grid_tiling_exact_cover_counterexample :
    x_cells [⟨⟨[⟨0, 0, 0, 0⟩]⟩, some 100⟩] 1 = 1 ∧
    y_cells [⟨⟨[⟨0, 0, 0, 0⟩]⟩, some 100⟩] 1 = 1 ∧
    Rect.memC (1/2) (1/2)
      (grid_square (padded_bounds [⟨⟨[⟨0, 0, 0, 0⟩]⟩, some 100⟩] 1) 1 0 0) ∧
    ¬ Rect.memC (1/2) (1/2) (padded_bounds [⟨⟨[⟨0, 0, 0, 0⟩]⟩, some 100⟩] 1) := by
  refine ⟨x_cells_one_point, y_cells_one_point, ?_, ?_⟩
  · norm_num [Rect.memC, grid_square, padded_bounds, total_bounds, Geometry.bounds]
  · norm_num [Rect.memC, padded_bounds, total_bounds, Geometry.bounds]

theorem decile_bucket_spec_witness :
    (1 ≤ decile_bucket ⟨1, 2, 3, 4, 5, 6, 7, 8, 9⟩ 2 ∧
     decile_bucket ⟨1, 2, 3, 4, 5, 6, 7, 8, 9⟩ 2 ≤ 10) ∧
    decile_bucket ⟨1, 2, 3, 4, 5, 6, 7, 8, 9⟩ 2 =
      first_match_bucket ⟨1, 2, 3, 4, 5, 6, 7, 8, 9⟩ 2 ∧
    decile_bucket ⟨1, 2, 3, 4, 5, 6, 7, 8, 9⟩ 2 ≤ 2 :=
  ⟨(decile_bucket_spec ⟨1, 2, 3, 4, 5, 6, 7, 8, 9⟩ 2).1,
   (decile_bucket_spec ⟨1, 2, 3, 4, 5, 6, 7, 8, 9⟩ 2).2.1,
   (decile_bucket_spec ⟨1, 2, 3, 4, 5, 6, 7, 8, 9⟩ 2).2.2 1 (by norm_num)
     (by norm_num [threshold_list])⟩

theorem decile_bucket_monotone_witness :
    (0 : ℚ) < 5 ∧
    decile_bucket ⟨1, 2, 3, 4, 5, 6, 7, 8, 9⟩ 0 ≤
      decile_bucket ⟨1, 2, 3, 4, 5, 6, 7, 8, 9⟩ 5 :=
  ⟨by norm_num, decile_bucket_monotone ⟨1, 2, 3, 4, 5, 6, 7, 8, 9⟩ 0 5 (by norm_num)⟩

theorem empty_valid_data_raises_witness :
    valid_data [⟨⟨[⟨0, 0, 0, 0⟩]⟩, some 0⟩] = [] ∧
    create_grid_based_value_map [⟨⟨[⟨0, 0, 0, 0⟩]⟩, some 0⟩] 1 =
      .error "No valid data for grid map in column" := by
  have h : valid_data [⟨⟨[⟨0, 0, 0, 0⟩]⟩, some 0⟩] = [] := by
    norm_num [valid_data, List.filter]
  refine ⟨h, ?_⟩
  have := empty_valid_data_raises [⟨⟨[⟨0, 0, 0, 0⟩]⟩, some 0⟩] 1 h
  simpa using this

theorem straddling_record_witness :
    (⟨⟨[⟨0, 0, 3/2, 0⟩]⟩, some 100⟩ : Record) ∈
      cell_records [⟨⟨[⟨0, 0, 3/2, 0⟩]⟩, some 100⟩] ⟨0, 0, 1, 1⟩ ∧
    (⟨⟨[⟨0, 0, 3/2, 0⟩]⟩, some 100⟩ : Record) ∈
      cell_records [⟨⟨[⟨0, 0, 3/2, 0⟩]⟩, some 100⟩] ⟨1, 0, 2, 1⟩ :=
  straddling_record_in_every_cell [⟨⟨[⟨0, 0, 3/2, 0⟩]⟩, some 100⟩]
    ⟨⟨[⟨0, 0, 3/2, 0⟩]⟩, some 100⟩ ⟨0, 0, 1, 1⟩ ⟨1, 0, 2, 1⟩
    (List.mem_singleton.mpr rfl)
    (by norm_num [Geometry.intersectsRect, Rect.intersects])
    (by norm_num [Geometry.intersectsRect, Rect.intersects])

theorem prefilter_invariance_witness :
    valid_data [⟨⟨[⟨0, 0, 0, 0⟩]⟩, none⟩, ⟨⟨[⟨0, 0, 0, 0⟩]⟩, some 100⟩] ≠ [] ∧
    create_grid_based_value_map
        [⟨⟨[⟨0, 0, 0, 0⟩]⟩, none⟩, ⟨⟨[⟨0, 0, 0, 0⟩]⟩, some 100⟩] 1 =
      create_grid_based_value_map
        (valid_data [⟨⟨[⟨0, 0, 0, 0⟩]⟩, none⟩, ⟨⟨[⟨0, 0, 0, 0⟩]⟩, some 100⟩]) 1 := by
  have h : valid_data [⟨⟨[⟨0, 0, 0, 0⟩]⟩, none⟩, ⟨⟨[⟨0, 0, 0, 0⟩]⟩, some 100⟩] ≠ [] := by
    norm_num [valid_data, List.filter]
  exact ⟨h, prefilter_invariance _ 1 h⟩

set_option maxHeartbeats 4000000 in
/-- C9 counterexample: two point records placed at the top-left and
bottom-right of a 2-by-2 grid. The loop emits the statistic of cell
(column 0, row 1) before that of cell (column 1, row 0), so the emitted
sequence is not in row-major order (row-major would list all of row 0
first). -/
theorem row_major_counterexample :
    stat_indices (grid_stats
        [⟨⟨[⟨0, 3/2, 0, 3/2⟩]⟩, some 100⟩, ⟨⟨[⟨3/2, 0, 3/2, 0⟩]⟩, some 200⟩] 1) =
      [(0, 1), (1, 0)] ∧
    row_major_ordered [(0, 1), (1, 0)] = false := by
  constructor
  · have hx : x_cells
        [⟨⟨[⟨0, 3/2, 0, 3/2⟩]⟩, some 100⟩, ⟨⟨[⟨3/2, 0, 3/2, 0⟩]⟩, some 200⟩] 1 = 2 := by
      rw [x_cells]
      norm_num [padded_bounds, total_bounds, Geometry.bounds, Rect.hull]
      apply ceil_toNat_eq <;> norm_num
    have hy : y_cells
        [⟨⟨[⟨0, 3/2, 0, 3/2⟩]⟩, some 100⟩, ⟨⟨[⟨3/2, 0, 3/2, 0⟩]⟩, some 200⟩] 1 = 2 := by
      rw [y_cells]
      norm_num [padded_bounds, total_bounds, Geometry.bounds, Rect.hull]
      apply ceil_toNat_eq <;> norm_num
    rw [stat_indices, grid_stats, hx, hy]
    norm_num [mk_cell_stat, cell_records, index_candidates, total_bounds,
      padded_bounds, grid_square, Rect.intersects, Rect.hull, Geometry.bounds,
      Geometry.intersectsRect, Record.val, Option.getD, median,
      List.insertionSort, List.orderedInsert, List.range_succ,
      List.flatMap_cons, List.flatMap_nil, List.filterMap_cons]
  · decide

end GridVisualizer
